import Mathlib

set_option maxHeartbeats 1000000

/-
Verification of the paper-handlebars rendering facade (src/index.js).

The development shallowly embeds the HandlebarsRenderer class: the
precompiled-format detector (the regular expression used by
the method named tryRestoringPrecompiled in the source), the template
store (the handlebars partial map), the render / decorate pipeline,
renderString, getPreProcessor, and the error taxonomy.  The underlying
Handlebars engine is an external collaborator; it is modelled as an
abstract structure whose guarantees appear as explicit hypotheses.
-/

namespace PaperHandlebars

/-! ## The precompiled-format detector

The source tests a payload with the JavaScript regular expression

  `/.*"compiler"\w*:\w*\[.*"main"\w*:\w*function/`

via `re.test(payload)` (src/index.js, tryRestoringPrecompiled).  We embed
literal JavaScript regex semantics: `\w` is an ASCII word character, `.`
is any character other than a line terminator, `test` searches for a
match starting at any position. -/

/-- JavaScript word character, the class matched by `\w` in a regex with no
flags: ASCII letters, ASCII digits and the underscore. -/
def isWordChar (c : Char) : Bool := c.isAlpha || c.isDigit || c == '_'

/-- JavaScript `.` (dot) without the `s` flag: any character except the four
line terminators LF, CR, LINE SEPARATOR and PARAGRAPH SEPARATOR. -/
def isDotChar (c : Char) : Bool :=
  !(c == '\n' || c == '\r' || c == '\u2028' || c == '\u2029')

/-- Backtracking matcher for a starred character class `p*` followed by a
continuation: tries every split of the input into a prefix of characters
satisfying `p` and a remainder accepted by `cont`. -/
def tryStar (p : Char → Bool) (cont : List Char → Bool) : List Char → Bool
  | [] => cont []
  | c :: cs => cont (c :: cs) || (p c && tryStar p cont cs)

/-- Matcher for a literal followed by a continuation. -/
def litThen : List Char → (List Char → Bool) → List Char → Bool
  | [], cont, s => cont s
  | _ :: _, _, [] => false
  | l :: ls, cont, c :: cs => (c == l) && litThen ls cont cs

/-- Matcher for the part of the detector regex after the literal `"main"`:
the sub-pattern `\w*:\w*function`. -/
def tailAfterMain (s : List Char) : Bool :=
  tryStar isWordChar (litThen [':']
    (tryStar isWordChar (litThen "function".data (fun _ => true)))) s

/-- Matcher for the part of the detector regex after the literal `[`:
the sub-pattern `.*"main"\w*:\w*function`. -/
def afterBracket (s : List Char) : Bool :=
  tryStar isDotChar (litThen "\"main\"".data tailAfterMain) s

/-- Matcher for the part of the detector regex after the literal
`"compiler"`: the sub-pattern `\w*:\w*\[` and then the rest. -/
def afterCompilerKey (s : List Char) : Bool :=
  tryStar isWordChar (litThen [':']
    (tryStar isWordChar (litThen ['['] afterBracket))) s

/-- Matcher for the whole detector regex body starting at the current
position (the leading `.*` of the source regex adds nothing to an
unanchored search, so it is dropped). -/
def sigMatch (s : List Char) : Bool :=
  litThen "\"compiler\"".data afterCompilerKey s

/-- Unanchored search: `p` may match starting at any position, exactly the
semantics of JavaScript `RegExp.prototype.test`. -/
def searchFrom (p : List Char → Bool) : List Char → Bool
  | [] => p []
  | c :: cs => p (c :: cs) || searchFrom p cs

/-- The detector test from the source: does the JavaScript regular
expression match anywhere in the payload. -/
def reTest (s : List Char) : Bool := searchFrom sigMatch s

/-! ## Data model -/

/-- A JavaScript-like value stored in a render context. -/
inductive Val where
  | vstr : String → Val
  | vnum : Int → Val
  | vbool : Bool → Val
  | vnull : Val
  deriving DecidableEq

/-- A render context: a JavaScript object, embedded as an association list
of fields in property order. -/
abbrev Ctx := List (String × Val)

/-- An executable template handle: a function from a context to either a
rendered string or the message of a thrown runtime error. -/
abbrev Tpl := Ctx → Except String String

/-- A value stored in the handlebars partial map: either raw template
source text (registered unchanged) or an executable template restored
from a precompiled artifact. -/
inductive PEntry where
  | raw : String → PEntry
  | compiled : Tpl → PEntry

/-- The template store: the handlebars partial map, in registration
order. -/
abbrev Store := List (String × PEntry)

/-- First-match lookup in the template store, embedding the JavaScript
property read on the partial map. -/
def lookupTemplate : Store → String → Option PEntry
  | [], _ => none
  | (p, t) :: rest, path => if p = path then some t else lookupTemplate rest path

/-- Source method isTemplateLoaded: whether the path is bound in the
partial map. -/
def isTemplateLoaded (st : Store) (path : String) : Bool :=
  (lookupTemplate st path).isSome

/-- The paper translator, at the boundary the core consumes: it supplies a
locale string through getLocale. -/
structure Translator where
  locale : String

/-- Modelled from the spec: the underlying Handlebars engine is an
external collaborator that src/index.js calls through a narrow interface.
compile turns raw source into an executable handle (a thrown compile error
becomes the error branch); precompile produces the serialized textual
artifact; restore embeds the eval-plus-handlebars.template restoration
step applied to a payload that passed the detector, and fails on a
malformed or version-incompatible artifact. -/
structure Engine where
  compile : String → Except String Tpl
  precompile : String → Except String String
  restore : String → Except String Tpl

/-- The five error kinds of the renderer, each carrying the originating
message; compileError also carries the optional structured context (the
offending path) that the source attaches in getPreProcessor. -/
inductive RendererError where
  | compileError : String → Option String → RendererError
  | formatError : String → RendererError
  | renderError : String → RendererError
  | decoratorError : String → RendererError
  | templateNotFoundError : String → RendererError
  deriving DecidableEq

/-- The mutable instance state of a HandlebarsRenderer that the render
pipeline reads: the partial map, the configured translator, and the
decorator chain in registration order.  A decorator is a string transform
that may throw (the error branch carries the thrown message). -/
structure Renderer where
  partials : Store
  translator : Option Translator
  decorators : List (String → Except String String)

/-! ## Operations -/

/-- Source method (underscore) tryRestoringPrecompiled: if the detector
regex does not match, the payload is raw source and is returned unchanged;
otherwise the engine restoration runs and its failure propagates. -/
def tryRestoringPrecompiled (e : Engine) (payload : String) : Except String PEntry :=
  if reTest payload.data then
    match e.restore payload with
    | .error m => .error m
    | .ok f => .ok (.compiled f)
  else
    .ok (.raw payload)

/-- Source method addTemplates: iterate the batch in property order; a
path that is already loaded is skipped silently; otherwise the payload
goes through the detector/restorer, a restoration failure is rethrown as
FormatError (wrapping only the message) and aborts the iteration, and a
restored entry is registered.  The result is the post-call store paired
with the thrown error, if any. -/
def addTemplates (e : Engine) : Store → List (String × String) → Store × Option RendererError
  | st, [] => (st, none)
  | st, (path, payload) :: rest =>
    if isTemplateLoaded st path then
      addTemplates e st rest
    else
      match tryRestoringPrecompiled e payload with
      | .error m => (st, some (.formatError m))
      | .ok entry => addTemplates e (st ++ [(path, entry)]) rest

/-- Source method getPreProcessor, the function it returns: precompile
each template in order, keyed by path; the first failure is thrown as a
CompileError whose structured context carries the offending path. -/
def preProcess (e : Engine) : List (String × String) → Except RendererError (List (String × String))
  | [] => .ok []
  | (path, tpl) :: rest =>
    match e.precompile tpl with
    | .error m => .error (.compileError m (some path))
    | .ok a => Except.map (fun ps => (path, a) :: ps) (preProcess e rest)

/-- JavaScript property write `obj[k] = v`: replace the binding if the key
is present, append it otherwise. -/
def setField : Ctx → String → Val → Ctx
  | [], k, v => [(k, v)]
  | (k', v') :: rest, k, v =>
    if k' = k then (k, v) :: rest else (k', v') :: setField rest k v

/-- JavaScript property read. -/
def getField : Ctx → String → Option Val
  | [], _ => none
  | (k, v) :: rest, key => if k = key then some v else getField rest key

/-- The context augmentation render performs before the lookup:
`context.template = path`, then `context.locale_name = getLocale()` when a
translator is configured. -/
def augmentContext (r : Renderer) (path : String) (ctx : Ctx) : Ctx :=
  let c1 := setField ctx "template" (.vstr path)
  match r.translator with
  | some t => setField c1 "locale_name" (.vstr t.locale)
  | none => c1

/-- Modelled from the spec: executing a stored partial.  The engine
registration routine compiles raw source internally, so a raw entry
behaves as the engine compilation of its source; a restored entry is the
executable handle itself. -/
def execEntry (e : Engine) (entry : PEntry) (ctx : Ctx) : Except String String :=
  match entry with
  | .raw s =>
    match e.compile s with
    | .error m => .error m
    | .ok f => f ctx
  | .compiled f => f ctx

/-- The decorator chain fold from render: apply each decorator to the
previous output, in registration order; the first thrown message stops
the chain. -/
def applyDecorators : List (String → Except String String) → String → Except String String
  | [], s => .ok s
  | d :: ds, s =>
    match d s with
    | .ok s2 => applyDecorators ds s2
    | .error m => .error m

/-- The part of render after the context augmentation: look up the path
(absence throws TemplateNotFoundError with the path in the message),
execute the template (a thrown message becomes RenderError), then run the
decorator chain (a thrown message becomes DecoratorError). -/
def renderResult (e : Engine) (r : Renderer) (path : String) (ctx2 : Ctx) :
    Except RendererError String :=
  match lookupTemplate r.partials path with
  | none => .error (.templateNotFoundError ("template not found: " ++ path))
  | some entry =>
    match execEntry e entry ctx2 with
    | .error m => .error (.renderError m)
    | .ok s =>
      match applyDecorators r.decorators s with
      | .error m => .error (.decoratorError m)
      | .ok out => .ok out

/-- Source method render.  The context object is mutated in place before
the lookup; the embedding returns the render outcome together with the
caller's context as it stands after the call, and the template (when
reached) is executed on exactly that augmented context. -/
def render (e : Engine) (r : Renderer) (path : String) (ctx : Ctx) :
    Except RendererError String × Ctx :=
  (renderResult e r path (augmentContext r path ctx), augmentContext r path ctx)

/-- Source method renderString: compile the source fresh through the
engine (a thrown message becomes CompileError with no structured context)
and execute it on the caller's context unchanged; an execution failure
becomes RenderError.  The method reads no renderer state: no partial map,
no decorators, no translator. -/
def renderString (e : Engine) (tpl : String) (ctx : Ctx) : Except RendererError String :=
  match e.compile tpl with
  | .error m => .error (.compileError m none)
  | .ok f =>
    match f ctx with
    | .error m => .error (.renderError m)
    | .ok s => .ok s

/-! ## Concrete fixtures used to instantiate the theorems -/

/-- A textual artifact marker shaped like the engine serialization format:
it satisfies the detector signature. -/
def marker : String := "\x7b\"compiler\":[7],\"main\":function"

/-- A small concrete engine used to instantiate the theorems.  It
satisfies, at the inputs where the instantiations use it, the boundary
guarantees the spec states for the real Handlebars engine: precompiled
output carries the detector signature, restoration of that output agrees
with direct compilation, and the unbalanced block source fails to
precompile. -/
def toyEngine : Engine where
  compile := fun s => .ok (fun _ => .ok ("compiled:" ++ s))
  precompile := fun s =>
    if s = "\x7b\x7b#if\x7d\x7d" then .error "unbalanced block"
    else .ok (marker ++ s)
  restore := fun a =>
    if a = marker ++ "Hi" then .ok (fun _ => .ok "compiled:Hi")
    else .error "eval failed"

/-! ## Characterization of the detector regex -/

/-- Characterization of `tryStar`: it accepts exactly the strings that
split into a prefix drawn from the class and a remainder accepted by the
continuation. -/
theorem tryStar_iff (p : Char → Bool) (cont : List Char → Bool) :
    ∀ s, tryStar p cont s = true ↔
      ∃ w r, s = w ++ r ∧ (∀ c ∈ w, p c = true) ∧ cont r = true := by
  intro s
  induction s with
  | nil =>
    simp only [tryStar]
    constructor
    · intro h
      exact ⟨[], [], rfl, by simp, h⟩
    · rintro ⟨w, r, hs, -, hc⟩
      obtain ⟨rfl, rfl⟩ := List.append_eq_nil.mp hs.symm
      exact hc
  | cons c cs ih =>
    simp only [tryStar, Bool.or_eq_true, Bool.and_eq_true]
    constructor
    · rintro (h | ⟨hp, ht⟩)
      · exact ⟨[], c :: cs, rfl, by simp, h⟩
      · obtain ⟨w, r, hcs, hw, hc⟩ := ih.mp ht
        refine ⟨c :: w, r, by rw [hcs, List.cons_append], ?_, hc⟩
        intro x hx
        rcases List.mem_cons.mp hx with rfl | hx
        · exact hp
        · exact hw x hx
    · rintro ⟨w, r, hs, hw, hc⟩
      cases w with
      | nil =>
        rw [List.nil_append] at hs
        subst hs
        exact Or.inl hc
      | cons a w' =>
        rw [List.cons_append] at hs
        injection hs with h1 h2
        subst h1
        refine Or.inr ⟨hw c (List.mem_cons_self c w'), ?_⟩
        exact ih.mpr ⟨w', r, h2, fun x hx => hw x (List.mem_cons_of_mem c hx), hc⟩

/-- Characterization of `litThen`: it accepts exactly the strings that
start with the literal and whose remainder is accepted by the
continuation. -/
theorem litThen_iff (lit : List Char) (cont : List Char → Bool) :
    ∀ s, litThen lit cont s = true ↔ ∃ r, s = lit ++ r ∧ cont r = true := by
  induction lit with
  | nil =>
    intro s
    simp [litThen]
  | cons l ls ih =>
    intro s
    cases s with
    | nil => simp [litThen]
    | cons c cs =>
      simp only [litThen, Bool.and_eq_true, beq_iff_eq, List.cons_append]
      constructor
      · rintro ⟨rfl, h⟩
        obtain ⟨r, rfl, hc⟩ := (ih cs).mp h
        exact ⟨r, rfl, hc⟩
      · rintro ⟨r, hs, hc⟩
        injection hs with h1 h2
        subst h1
        exact ⟨rfl, (ih cs).mpr ⟨r, h2, hc⟩⟩

/-- Characterization of `searchFrom`: an unanchored search succeeds
exactly when the pattern matches at some split point. -/
theorem searchFrom_iff (p : List Char → Bool) :
    ∀ s, searchFrom p s = true ↔ ∃ pre r, s = pre ++ r ∧ p r = true := by
  intro s
  induction s with
  | nil =>
    simp only [searchFrom]
    constructor
    · intro h
      exact ⟨[], [], rfl, h⟩
    · rintro ⟨pre, r, hs, hp⟩
      obtain ⟨rfl, rfl⟩ := List.append_eq_nil.mp hs.symm
      exact hp
  | cons c cs ih =>
    simp only [searchFrom, Bool.or_eq_true]
    constructor
    · rintro (h | h)
      · exact ⟨[], c :: cs, rfl, h⟩
      · obtain ⟨pre, r, hcs, hp⟩ := ih.mp h
        exact ⟨c :: pre, r, by rw [hcs, List.cons_append], hp⟩
    · rintro ⟨pre, r, hs, hp⟩
      cases pre with
      | nil =>
        rw [List.nil_append] at hs
        subst hs
        exact Or.inl hp
      | cons a pre' =>
        rw [List.cons_append] at hs
        injection hs with h1 h2
        exact Or.inr (ih.mpr ⟨pre', r, h2, hp⟩)

/-- The structural signature the detector regex actually recognizes: the
literal `"compiler"`, then word characters around a colon, then `[`, then
any run of non-line-terminator characters, then the literal `"main"`,
then word characters around a colon, then the literal `function` — all at
an arbitrary position in the payload. -/
def PrecompiledSignature (s : List Char) : Prop :=
  ∃ pre w1 w2 mid w3 w4 rest,
    s = pre ++ "\"compiler\"".data ++ w1 ++ [':'] ++ w2 ++ ['['] ++ mid ++
        "\"main\"".data ++ w3 ++ [':'] ++ w4 ++ "function".data ++ rest ∧
    (∀ c ∈ w1, isWordChar c = true) ∧ (∀ c ∈ w2, isWordChar c = true) ∧
    (∀ c ∈ mid, isDotChar c = true) ∧
    (∀ c ∈ w3, isWordChar c = true) ∧ (∀ c ∈ w4, isWordChar c = true)

/-- The matcher for the regex body accepts a string assembled from its
structural parts. -/
theorem sigMatch_of_parts (w1 w2 mid w3 w4 rest : List Char)
    (hw1 : ∀ c ∈ w1, isWordChar c = true) (hw2 : ∀ c ∈ w2, isWordChar c = true)
    (hmid : ∀ c ∈ mid, isDotChar c = true)
    (hw3 : ∀ c ∈ w3, isWordChar c = true) (hw4 : ∀ c ∈ w4, isWordChar c = true) :
    sigMatch ("\"compiler\"".data ++ (w1 ++ ([':'] ++ (w2 ++ (['['] ++ (mid ++
      ("\"main\"".data ++ (w3 ++ ([':'] ++ (w4 ++ ("function".data ++ rest))))))))))) = true := by
  simp only [sigMatch, afterCompilerKey, afterBracket, tailAfterMain]
  exact (litThen_iff _ _ _).mpr ⟨_, rfl,
    (tryStar_iff _ _ _).mpr ⟨w1, _, rfl, hw1,
    (litThen_iff _ _ _).mpr ⟨_, rfl,
    (tryStar_iff _ _ _).mpr ⟨w2, _, rfl, hw2,
    (litThen_iff _ _ _).mpr ⟨_, rfl,
    (tryStar_iff _ _ _).mpr ⟨mid, _, rfl, hmid,
    (litThen_iff _ _ _).mpr ⟨_, rfl,
    (tryStar_iff _ _ _).mpr ⟨w3, _, rfl, hw3,
    (litThen_iff _ _ _).mpr ⟨_, rfl,
    (tryStar_iff _ _ _).mpr ⟨w4, _, rfl, hw4,
    (litThen_iff _ _ _).mpr ⟨rest, rfl, rfl⟩⟩⟩⟩⟩⟩⟩⟩⟩⟩⟩

/-- The detector test succeeds exactly on payloads carrying the
structural signature. -/
theorem reTest_iff (s : List Char) :
    reTest s = true ↔ PrecompiledSignature s := by
  constructor
  · intro h
    simp only [reTest] at h
    obtain ⟨pre, r0, rfl, h0⟩ := (searchFrom_iff sigMatch s).mp h
    simp only [sigMatch] at h0
    obtain ⟨r1, rfl, h1⟩ := (litThen_iff _ _ _).mp h0
    simp only [afterCompilerKey] at h1
    obtain ⟨w1, r2, rfl, hw1, h2⟩ := (tryStar_iff _ _ _).mp h1
    obtain ⟨r3, rfl, h3⟩ := (litThen_iff _ _ _).mp h2
    obtain ⟨w2, r4, rfl, hw2, h4⟩ := (tryStar_iff _ _ _).mp h3
    obtain ⟨r5, rfl, h5⟩ := (litThen_iff _ _ _).mp h4
    simp only [afterBracket] at h5
    obtain ⟨mid, r6, rfl, hmid, h6⟩ := (tryStar_iff _ _ _).mp h5
    obtain ⟨r7, rfl, h7⟩ := (litThen_iff _ _ _).mp h6
    simp only [tailAfterMain] at h7
    obtain ⟨w3, r8, rfl, hw3, h8⟩ := (tryStar_iff _ _ _).mp h7
    obtain ⟨r9, rfl, h9⟩ := (litThen_iff _ _ _).mp h8
    obtain ⟨w4, r10, rfl, hw4, h10⟩ := (tryStar_iff _ _ _).mp h9
    obtain ⟨rest, rfl, -⟩ := (litThen_iff _ _ _).mp h10
    exact ⟨pre, w1, w2, mid, w3, w4, rest, by simp only [List.append_assoc],
      hw1, hw2, hmid, hw3, hw4⟩
  · rintro ⟨pre, w1, w2, mid, w3, w4, rest, rfl, hw1, hw2, hmid, hw3, hw4⟩
    simp only [reTest]
    apply (searchFrom_iff sigMatch _).mpr
    refine ⟨pre, "\"compiler\"".data ++ (w1 ++ ([':'] ++ (w2 ++ (['['] ++ (mid ++
      ("\"main\"".data ++ (w3 ++ ([':'] ++ (w4 ++ ("function".data ++ rest)))))))))),
      by simp only [List.append_assoc], ?_⟩
    exact sigMatch_of_parts w1 w2 mid w3 w4 rest hw1 hw2 hmid hw3 hw4

/-! ## Store and context lemmas -/

/-- Reading back the field just written. -/
theorem getField_setField_same (c : Ctx) (k : String) (v : Val) :
    getField (setField c k v) k = some v := by
  induction c with
  | nil => simp [setField, getField]
  | cons kv rest ih =>
    obtain ⟨k', v'⟩ := kv
    by_cases h : k' = k
    · subst h
      simp [setField, getField]
    · simp [setField, getField, h, ih]

/-- Writing one field leaves every other field unchanged. -/
theorem getField_setField_ne (c : Ctx) (k k' : String) (v : Val) (h : k' ≠ k) :
    getField (setField c k' v) k = getField c k := by
  induction c with
  | nil => simp [setField, getField, h]
  | cons kv rest ih =>
    obtain ⟨k'', v''⟩ := kv
    by_cases h2 : k'' = k'
    · subst h2
      simp [setField, getField, h]
    · simp only [setField, if_neg h2, getField]
      by_cases h3 : k'' = k
      · simp [h3]
      · simp [h3, ih]

/-- A binding present in the store is still found after appending further
registrations. -/
theorem lookupTemplate_append_of_some (st st2 : Store) (path : String) (v : PEntry)
    (h : lookupTemplate st path = some v) :
    lookupTemplate (st ++ st2) path = some v := by
  induction st with
  | nil => simp [lookupTemplate] at h
  | cons kv rest ih =>
    obtain ⟨p, t⟩ := kv
    by_cases hp : p = path
    · subst hp
      simp_all [lookupTemplate]
    · simp only [lookupTemplate, if_neg hp] at h
      simp [lookupTemplate, hp, ih h]

/-- Registering a fresh path makes its binding visible. -/
theorem lookupTemplate_append_self (st : Store) (path : String) (x : PEntry)
    (h : lookupTemplate st path = none) :
    lookupTemplate (st ++ [(path, x)]) path = some x := by
  induction st with
  | nil => simp [lookupTemplate]
  | cons kv rest ih =>
    obtain ⟨p, t⟩ := kv
    by_cases hp : p = path
    · subst hp
      simp [lookupTemplate] at h
    · simp only [lookupTemplate, if_neg hp] at h
      simp [lookupTemplate, hp, ih h]

/-- The template the augmented context binds under the field named
template is the rendered path. -/
theorem getField_augment_template (r : Renderer) (path : String) (ctx : Ctx) :
    getField (augmentContext r path ctx) "template" = some (Val.vstr path) := by
  unfold augmentContext
  cases r.translator with
  | none => exact getField_setField_same ctx "template" (Val.vstr path)
  | some t =>
    rw [getField_setField_ne _ _ _ _ (by decide)]
    exact getField_setField_same ctx "template" (Val.vstr path)

/-- With a configured translator, the augmented context binds the field
named locale underscore name to the translator locale. -/
theorem getField_augment_locale (r : Renderer) (t : Translator) (path : String) (ctx : Ctx)
    (h : r.translator = some t) :
    getField (augmentContext r path ctx) "locale_name" = some (Val.vstr t.locale) := by
  unfold augmentContext
  rw [h]
  exact getField_setField_same _ "locale_name" (Val.vstr t.locale)

/-! ## Claim C1: the precompiled-format classifier -/

/-- The signature as the claim words it: a `compiler` key bound to an
array token and, later, a `main` key bound to a function token, with
whitespace (here, spaces) also allowed between the key, the colon and the
value.  This definition follows the claim's words, to be compared with
the matcher embedded from the source. -/
def SpecClaimedSignature (s : List Char) : Prop :=
  ∃ pre u1 u2 mid u3 u4 rest,
    s = pre ++ "\"compiler\"".data ++ u1 ++ [':'] ++ u2 ++ ['['] ++ mid ++
        "\"main\"".data ++ u3 ++ [':'] ++ u4 ++ "function".data ++ rest ∧
    (∀ c ∈ u1, isWordChar c = true ∨ c = ' ') ∧
    (∀ c ∈ u2, isWordChar c = true ∨ c = ' ') ∧
    (∀ c ∈ u3, isWordChar c = true ∨ c = ' ') ∧
    (∀ c ∈ u4, isWordChar c = true ∨ c = ' ')

/-- A payload that carries the compiler and main keys with ordinary
whitespace around the colons, exactly the shape the claim says is
classified as precompiled. -/
def wsPayload : String := "\x7b\"compiler\" : [7], \"main\" : function()\x7d"

/-- Claim C1 counterexample: a payload with a `compiler` key bound to an
array and a `main` key bound to a function token, with one space on each
side of the two colons, satisfies the claim's signature, yet the code's
detector rejects it (the regex allows only word characters, not
whitespace, around the colons) and the payload is classified as raw
source and returned unchanged. -/
theorem C1_counterexample :
    SpecClaimedSignature wsPayload.data ∧
    reTest wsPayload.data = false ∧
    tryRestoringPrecompiled toyEngine wsPayload = .ok (.raw wsPayload) := by
  refine ⟨⟨"\x7b".data, [' '], [' '], "7], ".data, [' '], [' '], "()\x7d".data,
    by decide, by decide, by decide, by decide, by decide⟩, by decide, ?_⟩
  have h : reTest wsPayload.data = false := by decide
  simp [tryRestoringPrecompiled, h]

/-- Claim C1 (amended): the detector classifies a payload as a serialized
compiled artifact if and only if it contains the literal `"compiler"`,
then a possibly empty run of word characters (letters, digits,
underscore — not whitespace), a colon, another word-character run and
`[`, followed — after an arbitrary run of non-line-terminator
characters, which may include other keys — by the literal `"main"`, a
word-character run, a colon, a word-character run and the literal
`function`; a payload the detector rejects, such as the ordinary template
text Hello followed by a name placeholder, is classified as raw source
and returned unchanged. -/
theorem C1_classifier (e : Engine) (payload : String) :
    (reTest payload.data = true ↔ PrecompiledSignature payload.data) ∧
    (∀ f, reTest payload.data = true → e.restore payload = .ok f →
      tryRestoringPrecompiled e payload = .ok (.compiled f)) ∧
    (reTest payload.data = false → tryRestoringPrecompiled e payload = .ok (.raw payload)) ∧
    (reTest "Hello \x7b\x7bname\x7d\x7d".data = false ∧
      tryRestoringPrecompiled e "Hello \x7b\x7bname\x7d\x7d" =
        .ok (.raw "Hello \x7b\x7bname\x7d\x7d")) := by
  refine ⟨reTest_iff payload.data, ?_, ?_, by decide, ?_⟩
  · intro f h hr
    simp [tryRestoringPrecompiled, h, hr]
  · intro h
    simp [tryRestoringPrecompiled, h]
  · have h : reTest "Hello \x7b\x7bname\x7d\x7d".data = false := by decide
    simp [tryRestoringPrecompiled, h]

/-- Claim C1 witness: the amended theorem applied at the raw payload abc,
which the detector rejects, so it is registered unchanged. -/
theorem C1_witness :
    tryRestoringPrecompiled toyEngine "abc" = Except.ok (PEntry.raw "abc") :=
  (C1_classifier toyEngine "abc").2.2.1 (by decide)

/-! ## Claim C2: first registration wins -/

/-- Claim C2: the template store obeys first-registration-wins.  A loaded
path is never rebound by a later addTemplates call; a call all of whose
paths are already loaded is a silent no-op with no error; and in the
concrete scenario of the claim, registering a twice with payload X and
then with payload Y leaves a bound to the result of X, with
isTemplateLoaded false before the first registration and true from it
onward. -/
theorem C2_first_wins :
    (∀ (e : Engine) (st : Store) (ts : List (String × String)) (path : String),
      isTemplateLoaded st path = true →
      lookupTemplate (addTemplates e st ts).1 path = lookupTemplate st path) ∧
    (∀ (e : Engine) (st : Store) (ts : List (String × String)),
      (∀ p ∈ ts.map Prod.fst, isTemplateLoaded st p = true) →
      addTemplates e st ts = (st, none)) ∧
    ((addTemplates toyEngine (addTemplates toyEngine (addTemplates toyEngine [] [("a", "X")]).1
        [("a", "X")]).1 [("a", "Y")]).1 = [("a", PEntry.raw "X")] ∧
      isTemplateLoaded ([] : Store) "a" = false ∧
      isTemplateLoaded (addTemplates toyEngine [] [("a", "X")]).1 "a" = true ∧
      (addTemplates toyEngine (addTemplates toyEngine [] [("a", "X")]).1 [("a", "X")]).2 = none ∧
      (addTemplates toyEngine (addTemplates toyEngine (addTemplates toyEngine [] [("a", "X")]).1
        [("a", "X")]).1 [("a", "Y")]).2 = none) := by
  refine ⟨?_, ?_, rfl, rfl, rfl, rfl, rfl⟩
  · intro e st ts path
    induction ts generalizing st with
    | nil =>
      intro _
      rfl
    | cons entry rest ih =>
      intro h
      obtain ⟨p, payload⟩ := entry
      cases hl : isTemplateLoaded st p with
      | true => simpa [addTemplates, hl] using ih st h
      | false =>
        obtain ⟨v, hv⟩ := Option.isSome_iff_exists.mp h
        cases hres : tryRestoringPrecompiled e payload with
        | error m => simp [addTemplates, hl, hres]
        | ok entry2 =>
          have hkeep : lookupTemplate (st ++ [(p, entry2)]) path = some v :=
            lookupTemplate_append_of_some st [(p, entry2)] path v hv
          have h2 : isTemplateLoaded (st ++ [(p, entry2)]) path = true := by
            simp [isTemplateLoaded, hkeep]
          simp only [addTemplates, hl, Bool.false_eq_true, if_false, hres]
          rw [ih _ h2, hkeep, hv]
  · intro e st ts
    induction ts with
    | nil =>
      intro _
      rfl
    | cons entry rest ih =>
      intro h
      obtain ⟨p, payload⟩ := entry
      have hp : isTemplateLoaded st p = true := h p (by simp)
      have hrest : ∀ q ∈ rest.map Prod.fst, isTemplateLoaded st q = true := by
        intro q hq
        exact h q (by simp [hq])
      simp [addTemplates, hp, ih hrest]

/-- Claim C2 witness: the first conjunct applied at a store that already
binds a, then a batch rebinding a. -/
theorem C2_witness :
    lookupTemplate (addTemplates toyEngine [("a", PEntry.raw "X")] [("a", "Y")]).1 "a" =
      lookupTemplate [("a", PEntry.raw "X")] "a" :=
  C2_first_wins.1 toyEngine [("a", PEntry.raw "X")] [("a", "Y")] "a" rfl

/-! ## Claim C3: missing template -/

/-- Claim C3: rendering an unregistered path fails with
TemplateNotFoundError whose message contains the path, and the outcome is
the same for every decorator chain and translator, so no decorator runs
and no template executes. -/
theorem C3_missing_template (e : Engine) (r : Renderer) (p : String) (ctx : Ctx)
    (h : lookupTemplate r.partials p = none) :
    (render e r p ctx).1 =
      .error (.templateNotFoundError ("template not found: " ++ p)) ∧
    (∃ l rr : List Char, ("template not found: " ++ p).data = l ++ p.data ++ rr) ∧
    (∀ ds tr,
      (render e { partials := r.partials, translator := tr, decorators := ds } p ctx).1 =
        .error (.templateNotFoundError ("template not found: " ++ p))) := by
  refine ⟨?_, ⟨"template not found: ".data, [], by simp⟩, ?_⟩
  · simp [render, renderResult, h]
  · intro ds tr
    simp [render, renderResult, h]

/-- Claim C3 witness: rendering the unregistered path missing on an empty
renderer raises the not-found error naming the path. -/
theorem C3_witness :
    (render toyEngine { partials := [], translator := none, decorators := [] }
      "missing" []).1 =
      Except.error (RendererError.templateNotFoundError "template not found: missing") :=
  (C3_missing_template toyEngine
    { partials := [], translator := none, decorators := [] } "missing" [] rfl).1

/-! ## Claim C4: decorator order and fail-fast -/

/-- A one-shot template that renders the string X, ignoring its
context. -/
def xTemplate : PEntry := PEntry.compiled (fun _ => Except.ok "X")

/-- A renderer whose chain appends A and then B, in registration
order. -/
def rAB : Renderer where
  partials := [("p", xTemplate)]
  translator := none
  decorators := [fun t => Except.ok (t ++ "A"), fun t => Except.ok (t ++ "B")]

/-- A renderer whose first decorator throws boom. -/
def rBoom : Renderer where
  partials := [("p", xTemplate)]
  translator := none
  decorators := [fun _ => Except.error "boom", fun t => Except.ok (t ++ "B")]

/-- Claim C4: the decorator chain is applied in registration order, each
decorator consuming the previous output; a throwing decorator stops the
chain (the suffix is irrelevant to the result) and surfaces as
DecoratorError; concretely, decorators appending A then B turn a render
of X into XAB, and a throwing first decorator yields DecoratorError with
its message. -/
theorem C4_decorator_chain (ds1 ds2 : List (String → Except String String))
    (d : String → Except String String) (s s' m : String) :
    (applyDecorators (ds1 ++ ds2) s = match applyDecorators ds1 s with
      | .ok t => applyDecorators ds2 t
      | .error u => .error u) ∧
    (applyDecorators ds1 s = .ok s' → d s' = .error m →
      applyDecorators (ds1 ++ d :: ds2) s = .error m) ∧
    (∀ (e : Engine) (st : Store) (tr : Option Translator) (p : String) (ctx : Ctx)
      (f : Tpl) (x : String),
      lookupTemplate st p = some (PEntry.compiled f) →
      f (augmentContext
          { partials := st, translator := tr, decorators := ds1 ++ d :: ds2 }
          p ctx) = .ok x →
      applyDecorators ds1 x = .ok s' → d s' = .error m →
      (render e
          { partials := st, translator := tr, decorators := ds1 ++ d :: ds2 }
          p ctx).1 = .error (.decoratorError m)) ∧
    ((render toyEngine rAB "p" []).1 = Except.ok "XAB") ∧
    ((render toyEngine rBoom "p" []).1 =
      Except.error (RendererError.decoratorError "boom")) := by
  have happ : ∀ (l1 l2 : List (String → Except String String)) (u : String),
      applyDecorators (l1 ++ l2) u = match applyDecorators l1 u with
        | .ok t => applyDecorators l2 t
        | .error v => .error v := by
    intro l1
    induction l1 with
    | nil =>
      intro l2 u
      rfl
    | cons dd rest ih =>
      intro l2 u
      simp only [List.cons_append, applyDecorators]
      cases dd u with
      | ok t => exact ih l2 t
      | error v => rfl
  have hff : applyDecorators ds1 s = .ok s' → d s' = .error m →
      ∀ u, applyDecorators ds1 u = .ok s' → applyDecorators (ds1 ++ d :: ds2) u = .error m := by
    intro _ h2 u hu
    rw [happ ds1 (d :: ds2) u, hu]
    simp [applyDecorators, h2]
  refine ⟨happ ds1 ds2 s, ?_, ?_, rfl, rfl⟩
  · intro h1 h2
    rw [happ ds1 (d :: ds2) s, h1]
    simp [applyDecorators, h2]
  · intro e st tr p ctx f x hf hx h1 h2
    have hres : applyDecorators (ds1 ++ d :: ds2) x = .error m := by
      rw [happ ds1 (d :: ds2) x, h1]
      simp [applyDecorators, h2]
    simp [render, renderResult, execEntry, hf, hx, hres]

/-- Claim C4 witness: the fail-fast conjunct applied to the one-element
chain whose decorator throws boom. -/
theorem C4_witness :
    applyDecorators [fun _ => Except.error "boom"] "X" = Except.error "boom" :=
  (C4_decorator_chain [] [] (fun _ => Except.error "boom") "X" "X" "boom").2.1 rfl rfl

/-! ## Claim C5: FormatError attribution in addTemplates -/

/-- A payload that passes the detector but fails the toy engine
restoration. -/
def badArtifact : String := "x\x7b\"compiler\":[7],\"main\":function boom"

/-- Claim C5 counterexample: when the restorer fails on the entry at path
mytemplatepath, the raised error is FormatError wrapping only the
restorer's message; the path appears nowhere in the error, so the error
does not identify which payload failed. -/
theorem C5_counterexample :
    addTemplates toyEngine [] [("mytemplatepath", badArtifact)] =
      ([], some (RendererError.formatError "eval failed")) ∧
    ¬ ∃ l rr : List Char, "eval failed".data = l ++ "mytemplatepath".data ++ rr := by
  constructor
  · have h : reTest badArtifact.data = true := by decide
    have h2 : toyEngine.restore badArtifact = .error "eval failed" := rfl
    simp [addTemplates, isTemplateLoaded, lookupTemplate, tryRestoringPrecompiled, h, h2]
  · rintro ⟨l, rr, hEq⟩
    have hlen := congrArg List.length hEq
    rw [List.length_append, List.length_append] at hlen
    have h11 : ("eval failed".data).length = 11 := by decide
    have h14 : ("mytemplatepath".data).length = 14 := by decide
    rw [h11, h14] at hlen
    omega

/-- Claim C5 (amended): when the detector/restorer fails on the first
not-yet-loaded entry of a batch, addTemplates stops there and throws
FormatError wrapping exactly the original failure message of that
specific entry; the error carries no structured context, so it does not
name the failing path. -/
theorem C5_format_error (e : Engine) (st : Store) (p payload : String)
    (rest : List (String × String)) (m : String)
    (h1 : isTemplateLoaded st p = false)
    (h2 : tryRestoringPrecompiled e payload = .error m) :
    addTemplates e st ((p, payload) :: rest) = (st, some (.formatError m)) := by
  simp [addTemplates, h1, h2]

/-- Claim C5 witness: the amended theorem applied to the concrete failing
batch. -/
theorem C5_witness :
    addTemplates toyEngine [] [("mytemplatepath", badArtifact)] =
      ([], some (RendererError.formatError "eval failed")) :=
  C5_format_error toyEngine [] "mytemplatepath" badArtifact [] "eval failed" rfl rfl

/-! ## Claim C6: context augmentation seen by the template -/

/-- Claim C6: render executes the template on the augmented context — the
pair returned by render carries exactly that context — in which the field
named template is bound to the rendered path and, whenever a translator
is configured, the field named locale underscore name is bound to the
translator's locale; when the path is bound to a compiled handle, the
render outcome is produced by running that handle on exactly this
augmented context and then the decorator chain. -/
theorem C6_context_augmentation (e : Engine) (r : Renderer) (p : String) (ctx : Ctx) :
    (render e r p ctx).2 = augmentContext r p ctx ∧
    getField (render e r p ctx).2 "template" = some (Val.vstr p) ∧
    (∀ t, r.translator = some t →
      getField (render e r p ctx).2 "locale_name" = some (Val.vstr t.locale)) ∧
    (∀ f, lookupTemplate r.partials p = some (PEntry.compiled f) →
      (render e r p ctx).1 = (match f (augmentContext r p ctx) with
        | .ok x =>
          match applyDecorators r.decorators x with
          | .ok out => .ok out
          | .error dm => Except.error (RendererError.decoratorError dm)
        | .error rm => Except.error (RendererError.renderError rm))) := by
  refine ⟨rfl, getField_augment_template r p ctx, ?_, ?_⟩
  · intro t ht
    exact getField_augment_locale r t p ctx ht
  · intro f hf
    simp only [render, renderResult, execEntry, hf]
    cases hfx : f (augmentContext r p ctx) with
    | error rm => simp
    | ok x =>
      cases hdx : applyDecorators r.decorators x with
      | error dm => simp [hdx]
      | ok out => simp [hdx]

/-- A renderer with a configured en-US translator and one registered
template. -/
def rLoc : Renderer where
  partials := [("p", PEntry.compiled (fun _ => Except.ok "out"))]
  translator := some ⟨"en-US"⟩
  decorators := []

/-- Claim C6 witness: with the en-US translator configured, the context
the template sees binds the locale field to en-US. -/
theorem C6_witness :
    getField (render toyEngine rLoc "p" []).2 "locale_name" =
      some (Val.vstr "en-US") :=
  (C6_context_augmentation toyEngine rLoc "p" []).2.2.1 ⟨"en-US"⟩ rfl

/-! ## Claim C7: precompile and restore round-trip -/

/-- Claim C7: under the engine's boundary guarantees — the precompiled
serialization of a source carries the detector signature, restoring it
yields a handle that agrees pointwise with direct compilation, and the
raw source itself does not carry the signature — registering the
precompiled serialization under a fresh path and rendering it produces
the same outcome as registering the raw source and rendering it, for
every context, translator and decorator chain. -/
theorem C7_roundtrip (e : Engine) (st : Store) (tr : Option Translator)
    (ds : List (String → Except String String)) (p s a : String) (f g : Tpl)
    (hfresh : isTemplateLoaded st p = false)
    (hraw : reTest s.data = false)
    (_hpre : e.precompile s = .ok a)
    (hsig : reTest a.data = true)
    (hrestore : e.restore a = .ok f)
    (hcompile : e.compile s = .ok g)
    (hagree : ∀ c, f c = g c) :
    ∀ ctx : Ctx,
      (render e
        { partials := (addTemplates e st [(p, s)]).1, translator := tr, decorators := ds }
        p ctx).1 =
      (render e
        { partials := (addTemplates e st [(p, a)]).1, translator := tr, decorators := ds }
        p ctx).1 := by
  intro ctx
  have hnone : lookupTemplate st p = none := by
    cases h : lookupTemplate st p with
    | none => rfl
    | some v =>
      rw [isTemplateLoaded, h] at hfresh
      simp at hfresh
  have hst1 : (addTemplates e st [(p, s)]).1 = st ++ [(p, PEntry.raw s)] := by
    simp [addTemplates, isTemplateLoaded, hnone, tryRestoringPrecompiled, hraw]
  have hst2 : (addTemplates e st [(p, a)]).1 = st ++ [(p, PEntry.compiled f)] := by
    simp [addTemplates, isTemplateLoaded, hnone, tryRestoringPrecompiled, hsig, hrestore]
  rw [hst1, hst2]
  simp only [render, renderResult,
    lookupTemplate_append_self st p (PEntry.raw s) hnone,
    lookupTemplate_append_self st p (PEntry.compiled f) hnone,
    execEntry, hcompile, hagree]
  have haug : augmentContext
      { partials := st ++ [(p, PEntry.raw s)], translator := tr, decorators := ds } p ctx =
    augmentContext
      { partials := st ++ [(p, PEntry.compiled f)], translator := tr, decorators := ds } p ctx := rfl
  rw [haug]

/-- Claim C7 witness: on the toy engine, rendering the raw source Hi and
rendering its precompiled serialization produce the same outcome. -/
theorem C7_witness :
    (render toyEngine
      { partials := (addTemplates toyEngine [] [("p", "Hi")]).1,
        translator := none, decorators := [] }
      "p" []).1 =
    (render toyEngine
      { partials := (addTemplates toyEngine [] [("p", marker ++ "Hi")]).1,
        translator := none, decorators := [] }
      "p" []).1 :=
  C7_roundtrip toyEngine [] none [] "p" "Hi" (marker ++ "Hi")
    (fun _ => Except.ok "compiled:Hi") (fun _ => Except.ok ("compiled:" ++ "Hi"))
    rfl (by decide) rfl (by decide) rfl rfl (fun _ => rfl) []

/-! ## Claim C8: renderString -/

/-- Claim C8: renderString compiles the source fresh through the engine
and executes it on the caller's context exactly as given — no field is
injected, no store is consulted (the operation reads no renderer state at
all) and no decorator is applied to the result; a compile failure
surfaces as CompileError with no structured context and an execution
failure surfaces as RenderError. -/
theorem C8_renderString (e : Engine) (tpl : String) (ctx : Ctx) :
    (∀ m, e.compile tpl = .error m →
      renderString e tpl ctx = .error (.compileError m none)) ∧
    (∀ f m, e.compile tpl = .ok f → f ctx = .error m →
      renderString e tpl ctx = .error (.renderError m)) ∧
    (∀ f s, e.compile tpl = .ok f → f ctx = .ok s →
      renderString e tpl ctx = .ok s) := by
  refine ⟨?_, ?_, ?_⟩
  · intro m h
    simp [renderString, h]
  · intro f m h1 h2
    simp [renderString, h1, h2]
  · intro f s h1 h2
    simp [renderString, h1, h2]

/-- Claim C8 witness: the toy engine compiles the one-character source t
and renderString returns its direct output, undecorated and with the
caller's empty context untouched. -/
theorem C8_witness : renderString toyEngine "t" [] = Except.ok "compiled:t" :=
  (C8_renderString toyEngine "t" []).2.2
    (fun _ => Except.ok ("compiled:" ++ "t")) ("compiled:" ++ "t") rfl rfl

/-! ## Claim C9: the preprocessor and error attribution -/

/-- Claim C9: the function returned by getPreProcessor maps each entry to
its precompiled serialization keyed by path, in order; the first entry
whose precompilation fails — even after earlier successful entries —
raises CompileError carrying the original message and, as structured
context, the offending path; concretely, on the batch with good and bad,
good precompiles and the raised error names bad. -/
theorem C9_preprocessor (e : Engine) :
    (∀ p t rest a, e.precompile t = .ok a →
      preProcess e ((p, t) :: rest) =
        Except.map (fun ps => (p, a) :: ps) (preProcess e rest)) ∧
    (∀ (pre : List (String × String)) p t post m,
      (∀ q ∈ pre, ∃ a, e.precompile q.2 = .ok a) →
      e.precompile t = .error m →
      preProcess e (pre ++ (p, t) :: post) = .error (.compileError m (some p))) ∧
    (preProcess toyEngine [("good", "\x7b\x7bok\x7d\x7d"), ("bad", "\x7b\x7b#if\x7d\x7d")] =
      .error (.compileError "unbalanced block" (some "bad")) ∧
      toyEngine.precompile "\x7b\x7bok\x7d\x7d" = .ok (marker ++ "\x7b\x7bok\x7d\x7d")) := by
  refine ⟨?_, ?_, rfl, rfl⟩
  · intro p t rest a h
    simp [preProcess, h]
  · intro pre p t post m
    induction pre with
    | nil =>
      intro _ hbad
      simp [preProcess, hbad]
    | cons q rest ih =>
      intro hok hbad
      obtain ⟨qp, qt⟩ := q
      obtain ⟨a, ha⟩ := hok (qp, qt) (by simp)
      have hstep := ih (fun q2 hq2 => hok q2 (by simp [hq2])) hbad
      simp [preProcess, ha, hstep, Except.map]

/-- Claim C9 witness: the attribution conjunct applied to the concrete
batch in which good succeeds and bad fails to precompile. -/
theorem C9_witness :
    preProcess toyEngine [("good", "\x7b\x7bok\x7d\x7d"), ("bad", "\x7b\x7b#if\x7d\x7d")] =
      Except.error (RendererError.compileError "unbalanced block" (some "bad")) :=
  (C9_preprocessor toyEngine).2.1 [("good", "\x7b\x7bok\x7d\x7d")] "bad"
    "\x7b\x7b#if\x7d\x7d" [] "unbalanced block"
    (by
      intro q hq
      rw [List.mem_singleton] at hq
      subst hq
      exact ⟨marker ++ "\x7b\x7bok\x7d\x7d", rfl⟩)
    rfl

/-! ## Claim C10: the context is mutated before the lookup -/

/-- Claim C10: even when the path is unregistered and render raises
TemplateNotFoundError, the caller's context has already been mutated: the
field named template is bound to the path and, with a translator
configured, the locale field is bound to the translator's locale — the
error is not atomic with respect to the caller's context. -/
theorem C10_mutation_before_lookup (e : Engine) (r : Renderer) (p : String) (ctx : Ctx)
    (h : lookupTemplate r.partials p = none) :
    (render e r p ctx).1 =
      .error (.templateNotFoundError ("template not found: " ++ p)) ∧
    getField (render e r p ctx).2 "template" = some (Val.vstr p) ∧
    (∀ t, r.translator = some t →
      getField (render e r p ctx).2 "locale_name" = some (Val.vstr t.locale)) := by
  refine ⟨?_, getField_augment_template r p ctx, ?_⟩
  · simp [render, renderResult, h]
  · intro t ht
    exact getField_augment_locale r t p ctx ht

/-- A renderer with a configured en-US translator and an empty store. -/
def rLocEmpty : Renderer where
  partials := []
  translator := some ⟨"en-US"⟩
  decorators := []

/-- Claim C10 witness: rendering a missing path on the translator-bearing
empty renderer fails, yet the returned context carries both injected
fields. -/
theorem C10_witness :
    getField (render toyEngine rLocEmpty "missing" []).2 "locale_name" =
        some (Val.vstr "en-US") ∧
    getField (render toyEngine rLocEmpty "missing" []).2 "template" =
        some (Val.vstr "missing") :=
  ⟨(C10_mutation_before_lookup toyEngine rLocEmpty "missing" [] rfl).2.2 ⟨"en-US"⟩ rfl,
    (C10_mutation_before_lookup toyEngine rLocEmpty "missing" [] rfl).2.1⟩

end PaperHandlebars
